import Mathlib

/-!
Shallow embedding of rplugin/python3/deoplete/source/solargraph.py.

Python strings (paths, output lines, messages) are modelled as lists of
characters; the filesystem is the list of existing paths; a spawned child
process is a numeric handle; a raised exception is an explicit error value
(Except or an Option paired with the state reached when the exception left
the function). Remote input (the transport outcome of a request, the lines a
child process writes) is passed in explicitly.
-/

namespace Solargraph

/-- A Python str, as its list of characters. -/
abbrev Str := List Char

/-- Python str.rstrip applied with the path separator. -/
def rstripSlash (l : Str) : Str := (l.reverse.dropWhile (fun c => c == '/')).reverse

/-- The slice p[:i] with i = p.rfind(sep) + 1 taken by posixpath.dirname
(0 when there is no slash: List.indexOf returns the length then). -/
def dirnameHead (p : Str) : Str := p.take (p.length - p.reverse.indexOf '/')

/-- Python os.path.dirname for POSIX paths: the prefix up to the last slash,
its trailing slashes stripped unless that prefix is empty or all slashes. -/
def dirname (p : Str) : Str :=
  if (dirnameHead p).any (fun c => c != '/') then rstripSlash (dirnameHead p)
  else dirnameHead p

/-- Python os.path.join for two POSIX components: an absolute second
component replaces the first; otherwise a separator is inserted unless the
first component is empty or already ends in one. -/
def joinPath (a b : Str) : Str :=
  if b.take 1 = ['/'] then b
  else if a = [] ∨ a.getLast? = some '/' then a ++ b
  else a ++ '/' :: b

theorem rstripSlash_length_le (l : Str) : (rstripSlash l).length ≤ l.length := by
  have h := (List.dropWhile_sublist (l := l.reverse) (fun c => c == '/')).length_le
  simpa [rstripSlash] using h

theorem dirname_length_le (p : Str) : (dirname p).length ≤ p.length := by
  have ht : (dirnameHead p).length ≤ p.length := by
    simp only [dirnameHead, List.length_take]
    omega
  unfold dirname
  split
  · exact (rstripSlash_length_le _).trans ht
  · exact ht

theorem dirname_nil : dirname [] = [] := by decide

/-- Loop body of find_dir_recursive from the source: the parent is
dirname(base_dir[:-1]); when the parent is the empty string the walk returns
None before base_dir itself is examined for markers; otherwise base_dir is
returned when one of the targets exists directly inside it, and the walk
moves to the parent when none does. -/
def find_dir_recursive (fs : List Str) (base_dir : Str) (targets : List Str) : Option Str :=
  if dirname base_dir.dropLast = [] then none
  else if targets.any (fun t => fs.contains (joinPath base_dir t)) then some base_dir
  else find_dir_recursive fs (dirname base_dir.dropLast) targets
termination_by base_dir.length
decreasing_by
  rename_i hpar _
  have h1 : (dirname base_dir.dropLast).length ≤ base_dir.dropLast.length :=
    dirname_length_le _
  cases base_dir with
  | nil => exact absurd dirname_nil hpar
  | cons c rest =>
    simp [List.length_dropLast] at h1
    simp
    omega

/-- Directories the walk of find_dir_recursive examines, in order: base_dir
and then the successive parents, ending (exclusive) at the first directory
whose computed parent is the empty string. -/
def checkedAncestors (base_dir : Str) : List Str :=
  if dirname base_dir.dropLast = [] then []
  else base_dir :: checkedAncestors (dirname base_dir.dropLast)
termination_by base_dir.length
decreasing_by
  rename_i hpar
  have h1 : (dirname base_dir.dropLast).length ≤ base_dir.dropLast.length :=
    dirname_length_le _
  cases base_dir with
  | nil => exact absurd dirname_nil hpar
  | cons c rest =>
    simp [List.length_dropLast] at h1
    simp
    omega

/-- Python `x or y` for x of type Optional[str]: None and the empty string
are falsy. -/
def pyOr (x : Option Str) (y : Str) : Str :=
  match x with
  | none => y
  | some s => if s = [] then y else s

/-- Python `==` between an int and a str: operands of different types are
never equal in Python 3, so the comparison is always False. -/
def pyIntEqStr (_n : Nat) (_s : Str) : Bool := false

/-- Marker names the workspace walk looks for. -/
def workspaceMarkers : List Str := ["Gemfile".toList, ".git".toList]

/-- Source.find_workspace_directory: takes the containing directory of
filepath; the guard `if len(file_dir) == ''` compares an int with a str and
is therefore always False, so its return-None branch is dead. On a cache
miss the walk result (or, when that is falsy, the directory itself) is
memoised under the containing directory. Returns the Python return value
(None or a str) together with the updated cache. -/
def find_workspace_directory (fs : List Str) (cache : List (Str × Str)) (filepath : Str) :
    Option Str × List (Str × Str) :=
  let file_dir := dirname filepath
  if pyIntEqStr file_dir.length [] then (none, cache)
  else
    match cache.lookup file_dir with
    | some v => (some v, cache)
    | none =>
      let v := pyOr (find_dir_recursive fs file_dir workspaceMarkers) file_dir
      (some v, (file_dir, v) :: cache)

/-! ## ProcessSupervisor (class Server) -/

/-- State of a Server instance, with the bookkeeping needed to reason about
child processes: every spawned, killed and stream-closed child handle is
recorded. -/
structure ServerState where
  proc : Option Nat
  port : Option Nat
  spawned : List Nat
  killed : List Nat
  closed : List Nat
deriving DecidableEq

/-- Value of int(match.group(1)) for a digit run. -/
def digitsToNat (ds : Str) : Nat := ds.foldl (fun a c => a * 10 + (c.toNat - 48)) 0

/-- One attempt of re.search r'PORT=(\d+)' at a fixed position: the literal
PORT= followed by a maximal nonempty digit run. -/
def matchPortAt (s : Str) : Option Nat :=
  if s.take 5 = "PORT=".toList then
    let ds := (s.drop 5).takeWhile Char.isDigit
    if ds = [] then none else some (digitsToNat ds)
  else none

/-- re.search r'PORT=(\d+)' over a whole line: the leftmost match. -/
def findPort : Str → Option Nat
  | [] => none
  | c :: rest =>
    match matchPortAt (c :: rest) with
    | some n => some n
    | none => findPort rest

/-- Message of the ServerError Server.start raises: the collected output is
appended after a colon only when it is nonempty. -/
def serverErrorMsg (output : Str) : Str :=
  "Failed to start server".toList ++ (if output = [] then [] else ":\n".toList ++ output)

/-- Reading loop of Server.start: lines are consumed in order; a line without
a port announcement is appended to the collected output; an empty read (the
modelled stream ends, or readline returns the empty string at end of stream)
raises ServerError with the collected output; the first announcing line
yields the port. -/
def portLoop : List Str → Str → Except Str Nat
  | [], output => .error (serverErrorMsg output)
  | line :: rest, output =>
    if line = [] then .error (serverErrorMsg output)
    else
      match findPort line with
      | some p => .ok p
      | none => portLoop rest (output ++ line)

/-- Server.start: records the freshly spawned child handle, then runs the
port-discovery loop over the lines the child writes. On success the
announced port is recorded; on failure the ServerError message is returned
in the second component, the new handle stays recorded and the port keeps
its previous value. -/
def Server.start (st : ServerState) (pid : Nat) (lines : List Str) :
    ServerState × Option Str :=
  let st1 := { st with proc := some pid, spawned := pid :: st.spawned }
  match portLoop lines [] with
  | .ok p => ({ st1 with port := some p }, none)
  | .error msg => (st1, some msg)

/-- Server.stop from the source: returns immediately when no process is
recorded; otherwise closes the captured output stream, kills the process and
clears the recorded handle and port. -/
def Server.stop (st : ServerState) : ServerState :=
  match st.proc with
  | none => st
  | some p =>
    { st with closed := p :: st.closed, killed := p :: st.killed, proc := none, port := none }

/-- Server.is_started from the source. -/
def Server.is_started (st : ServerState) : Bool :=
  st.proc.isSome && st.port.isSome

/-- Server.__init__ with a given spawn outcome: a fresh state (no process,
no port) runs start; a ServerError raised by start leaves the constructor
with no object built. -/
def serverNew (pid : Nat) (lines : List Str) : Except Str ServerState :=
  match Server.start ⟨none, none, [], [], []⟩ pid lines with
  | (st, none) => .ok st
  | (_, some msg) => .error msg

/-! ## RequestClient (class Client) -/

/-- One suggestion item of the response body. -/
structure Cand where
  insert : Str
  kind : Str
  label : Str
  detail : Str
  arguments : List Str
deriving DecidableEq

/-- Decoded body of a suggest response. -/
structure SuggestResponse where
  status : Str
  suggestions : List Cand
deriving DecidableEq

/-- Exceptions that can cross the client layer. -/
inductive PyExc where
  | clientError (msg : Str)
  | httpError (msg : Str)
  | urlError (msg : Str)
  | jsonError (msg : Str)
deriving DecidableEq

/-- Outcome of opener.open at the transport layer: urllib raises HTTPError
for a response with a non-2xx status and URLError for a connection-level
failure. -/
inductive TransportOutcome where
  | success (body : Str)
  | httpError (desc : Str)
  | urlError (desc : Str)
deriving DecidableEq

/-- post_request: issues the call and returns the raw body, or lets the
urllib exception propagate. -/
def post_request (outcome : TransportOutcome) : Except PyExc Str :=
  match outcome with
  | .success body => .ok body
  | .httpError d => .error (.httpError d)
  | .urlError d => .error (.urlError d)

/-- Client.request: the try block runs post_request and then json.loads
(modelled by decode; a body it rejects raises a decode error). The except
clause of the source names HTTPError only, so exactly that exception is
re-raised as ClientError carrying the description of the original, and
every other exception leaves the try block unchanged. -/
def Client.request (decode : Str → Option SuggestResponse) (outcome : TransportOutcome) :
    Except PyExc SuggestResponse :=
  let tried : Except PyExc SuggestResponse :=
    match post_request outcome with
    | .ok body =>
      match decode body with
      | some v => .ok v
      | none => .error (.jsonError body)
    | .error e => .error e
  match tried with
  | .error (.httpError d) => .error (.clientError d)
  | r => r

/-! ## CompletionOrchestrator (class Source) -/

/-- One record of the candidate list gather_candidates returns. -/
structure CandidateRecord where
  word : Str
  kind : Str
  dup : Nat
  abbr : Str
  info : Str
  menu : Str
deriving DecidableEq

/-- Source.build_abbr from the source: the label, with a parenthesised
comma-joined argument list appended when the kind is Method. -/
def build_abbr (cand : Cand) : Str :=
  if cand.kind = "Method".toList then
    cand.label ++ ['('] ++ List.intercalate ", ".toList cand.arguments ++ [')']
  else cand.label

/-- Mapping of one suggestion item into the record gather_candidates
returns. -/
def mkCandidate (c : Cand) : CandidateRecord :=
  { word := c.insert, kind := c.kind, dup := 1, abbr := build_abbr c,
    info := c.label, menu := c.detail }

/-- One call of self.print_error: either a plain message or, for a response
with a non-ok status, the whole response. -/
inductive ErrEntry where
  | msg (s : Str)
  | response (r : SuggestResponse)
deriving DecidableEq

/-- Mutable state of the Source object that the modelled methods touch. -/
structure SourceSt where
  is_server_started : Bool
  command : Str
  workspace_cache : List (Str × Str)
  errors : List ErrEntry
  server : Option ServerState
deriving DecidableEq

/-- Python truthiness of the value start_server returns (None, False or
True). -/
def pyTruthy : Option Bool → Bool
  | some true => true
  | _ => false

/-- Source.start_server: executable is what vim.call returns for the
command; pid and lines feed the Server constructor when one is made. The
branch with no command prints an error and falls off the function, returning
Python None (modelled as Option.none); a ServerError from the constructor is
printed and False is returned; otherwise the server is recorded and True is
returned. -/
def Source.start_server (st : SourceSt) (executable : Bool) (pid : Nat) (lines : List Str) :
    SourceSt × Option Bool :=
  if st.is_server_started then (st, some true)
  else if st.command = [] then
    ({ st with errors := .msg "No solargraph binary set.".toList :: st.errors }, none)
  else if executable = false then (st, some false)
  else
    match serverNew pid lines with
    | .error msg => ({ st with errors := .msg msg :: st.errors }, some false)
    | .ok sv => ({ st with server := some sv, is_server_started := true }, some true)

/-- Source.gather_candidates: runs start_server and returns the empty list
when its value is falsy; resolves the workspace for the buffer path
(updating the memo cache); then issues the suggest call through
Client.request. The source wraps no try/except around that call, so an
exception it raises leaves gather_candidates in the error position, paired
with the state reached at that point. A well-formed response with a non-ok
status is printed and the empty list returned; otherwise every suggestion is
mapped into a candidate record. -/
def Source.gather_candidates (fs : List Str) (st : SourceSt) (executable : Bool)
    (pid : Nat) (lines : List Str) (bufpath : Str)
    (decode : Str → Option SuggestResponse) (outcome : TransportOutcome) :
    SourceSt × Except PyExc (List CandidateRecord) :=
  match Source.start_server st executable pid lines with
  | (st1, startRes) =>
    if pyTruthy startRes = false then (st1, .ok [])
    else
      match find_workspace_directory fs st1.workspace_cache bufpath with
      | (_ws, cache2) =>
        let st2 := { st1 with workspace_cache := cache2 }
        match Client.request decode outcome with
        | .error e => (st2, .error e)
        | .ok result =>
          if result.status ≠ "ok".toList then
            ({ st2 with errors := .response result :: st2.errors }, .ok [])
          else
            (st2, .ok (result.suggestions.map mkCandidate))

/-- Characters of the class [a-zA-Z0-9_?!] in the completion-position
pattern. -/
def isIdentChar (c : Char) : Bool :=
  (decide ('a' ≤ c) && decide (c ≤ 'z')) || (decide ('A' ≤ c) && decide (c ≤ 'Z')) ||
  (decide ('0' ≤ c) && decide (c ≤ '9')) || (c == '_') || (c == '?') || (c == '!')

/-- Length of the run the starred class matches at the end of s. -/
def trailingTokenLen (s : Str) : Nat := (s.reverse.takeWhile isIdentChar).length

/-- re.search of the pattern with a starred class anchored at the end of the
line: the pattern can match the empty string at the end, so the search
always succeeds, and the leftmost match begins where the maximal trailing
run of accepted characters begins. -/
def searchTrailingToken (s : Str) : Option Nat := some (s.length - trailingTokenLen s)

/-- Source.get_complete_position from the source: the start of the match
when the search succeeds, -1 otherwise. -/
def get_complete_position (s : Str) : Int :=
  match searchTrailingToken s with
  | some k => (k : Int)
  | none => -1

/-! ## Supporting lemmas -/

theorem find_dir_recursive_none (fs : List Str) (base : Str) (targets : List Str)
    (h : dirname (List.dropLast base) = []) :
    find_dir_recursive fs base targets = none := by
  rw [find_dir_recursive, if_pos h]

theorem find_dir_recursive_found (fs : List Str) (base : Str) (targets : List Str)
    (h : dirname (List.dropLast base) ≠ [])
    (h2 : targets.any (fun t => fs.contains (joinPath base t)) = true) :
    find_dir_recursive fs base targets = some base := by
  rw [find_dir_recursive, if_neg h, if_pos h2]

theorem find_dir_recursive_step (fs : List Str) (base : Str) (targets : List Str)
    (h : dirname (List.dropLast base) ≠ [])
    (h2 : targets.any (fun t => fs.contains (joinPath base t)) = false) :
    find_dir_recursive fs base targets
      = find_dir_recursive fs (dirname (List.dropLast base)) targets := by
  rw [find_dir_recursive, if_neg h, if_neg (by rw [h2]; exact Bool.false_ne_true)]

theorem checkedAncestors_eq_nil (base : Str) (h : dirname (List.dropLast base) = []) :
    checkedAncestors base = [] := by
  rw [checkedAncestors, if_pos h]

theorem checkedAncestors_eq_cons (base : Str) (h : dirname (List.dropLast base) ≠ []) :
    checkedAncestors base = base :: checkedAncestors (dirname (List.dropLast base)) := by
  rw [checkedAncestors, if_neg h]

/-- The walk returns exactly the first examined directory holding a marker. -/
theorem find_dir_recursive_eq_find (fs : List Str) (targets : List Str) : ∀ base : Str,
    find_dir_recursive fs base targets
      = (checkedAncestors base).find? (fun d => targets.any (fun t => fs.contains (joinPath d t))) := by
  intro base
  generalize hn : base.length = n
  induction n using Nat.strong_induction_on generalizing base with
  | _ n ih =>
    by_cases h : dirname (List.dropLast base) = []
    · rw [find_dir_recursive_none fs base targets h, checkedAncestors_eq_nil base h]
      rfl
    · rw [checkedAncestors_eq_cons base h, List.find?_cons]
      cases h2 : targets.any (fun t => fs.contains (joinPath base t)) with
      | true => rw [find_dir_recursive_found fs base targets h h2]
      | false =>
        rw [find_dir_recursive_step fs base targets h h2]
        have hlt : (dirname (List.dropLast base)).length < n := by
          have h1 : (dirname (List.dropLast base)).length ≤ (List.dropLast base).length :=
            dirname_length_le _
          cases base with
          | nil => exact absurd dirname_nil h
          | cons c rest =>
            simp [List.length_dropLast] at h1
            simp at hn
            omega
        exact ih _ hlt _ rfl

/-- Every directory the walk examines has a nonempty computed parent. -/
theorem parent_ne_nil_of_mem_checkedAncestors (base : Str) : ∀ d ∈ checkedAncestors base,
    dirname (List.dropLast d) ≠ [] := by
  generalize hn : base.length = n
  induction n using Nat.strong_induction_on generalizing base with
  | _ n ih =>
    intro d hd
    by_cases h : dirname (List.dropLast base) = []
    · rw [checkedAncestors_eq_nil base h] at hd
      exact absurd hd (List.not_mem_nil d)
    · rw [checkedAncestors_eq_cons base h] at hd
      rcases List.mem_cons.mp hd with rfl | hd2
      · exact h
      · have hlt : (dirname (List.dropLast base)).length < n := by
          have h1 : (dirname (List.dropLast base)).length ≤ (List.dropLast base).length :=
            dirname_length_le _
          cases base with
          | nil => exact absurd dirname_nil h
          | cons c rest =>
            simp [List.length_dropLast] at h1
            simp at hn
            omega
        exact ih _ hlt _ rfl d hd2

/-- The filesystem root is never examined: its computed parent is empty. -/
theorem root_not_mem_checkedAncestors (base : Str) : "/".toList ∉ checkedAncestors base := by
  intro h
  exact parent_ne_nil_of_mem_checkedAncestors base _ h (by decide)

theorem portLoop_cons_found (line : Str) (rest : List Str) (acc : Str) (p : Nat)
    (hp : findPort line = some p) : portLoop (line :: rest) acc = .ok p := by
  have hne : line ≠ [] := by
    intro h
    rw [h] at hp
    exact Option.noConfusion hp
  simp [portLoop, hne, hp]

theorem portLoop_append (pre rest : List Str) (acc : Str)
    (h : ∀ l ∈ pre, l ≠ [] ∧ findPort l = none) :
    portLoop (pre ++ rest) acc = portLoop rest (acc ++ pre.flatten) := by
  induction pre generalizing acc with
  | nil => simp
  | cons l pre ih =>
    obtain ⟨hne, hnp⟩ := h l (List.mem_cons_self l pre)
    have hrest : ∀ x ∈ pre, x ≠ [] ∧ findPort x = none :=
      fun x hx => h x (List.mem_cons_of_mem l hx)
    simp only [List.cons_append, portLoop, if_neg hne, hnp]
    have hih := ih (acc ++ l) hrest
    simp only [List.flatten_cons]
    rw [← List.append_assoc]
    exact hih

/-! ## Concrete states used at specific inputs -/

/-- Server state as __init__ builds it before running start. -/
def freshServer : ServerState := ⟨none, none, [], [], []⟩

/-- Server state of a successfully started server: handle 1, port 5555. -/
def startedServer : ServerState := ⟨some 1, some 5555, [1], [], []⟩

/-- Source state after a successful start_server, its workspace for /w
already memoised. -/
def startedSource : SourceSt :=
  { is_server_started := true, command := "solargraph".toList,
    workspace_cache := [("/w".toList, "/w".toList)], errors := [],
    server := some startedServer }

/-- Decoder that rejects every body; used only at inputs whose transport
already fails. -/
def decodeNone : Str → Option SuggestResponse := fun _ => none

/-! ## Claims -/

/-- C3: Server.start reads the captured lines in order; every nonempty line
without a port announcement is skipped (and collected); the first line with
a PORT=<digits> announcement records that integer as the port and the call
succeeds. If the stream ends before any line matches, start raises a
ServerError whose message carries all collected lines. -/
theorem server_start_port_discovery :
    (∀ (st : ServerState) (pid : Nat) (pre : List Str) (line : Str) (rest : List Str) (p : Nat),
      (∀ l ∈ pre, l ≠ [] ∧ findPort l = none) → findPort line = some p →
      Server.start st pid (pre ++ line :: rest)
        = ({ st with proc := some pid, spawned := pid :: st.spawned, port := some p }, none)) ∧
    (∀ (st : ServerState) (pid : Nat) (lines : List Str),
      (∀ l ∈ lines, l ≠ [] ∧ findPort l = none) →
      Server.start st pid lines
        = ({ st with proc := some pid, spawned := pid :: st.spawned },
           some (serverErrorMsg lines.flatten))) := by
  constructor
  · intro st pid pre line rest p hpre hline
    unfold Server.start
    rw [portLoop_append pre (line :: rest) [] hpre,
      portLoop_cons_found line rest _ p hline]
  · intro st pid lines hlines
    unfold Server.start
    have h := portLoop_append lines [] [] hlines
    rw [List.append_nil] at h
    rw [h]
    simp [portLoop]

/-- C3 witness: a preamble line followed by PORT=4567 starts with port 4567. -/
theorem server_start_port_discovery_witness :
    Server.start freshServer 7 ["Booting solargraph\n".toList, "PORT=4567\n".toList]
      = (⟨some 7, some 4567, [7], [], []⟩, none) := by
  have h := server_start_port_discovery.1 freshServer 7 ["Booting solargraph\n".toList]
    "PORT=4567\n".toList [] 4567 (by decide) (by decide)
  exact h

/-- C6 counterexample: Server.start invoked on an already started server
state spawns and records a second child process and replaces the handle; it
is not a no-op. -/
theorem server_start_spawns_second_process :
    Server.is_started startedServer = true ∧
    (Server.start startedServer 2 ["PORT=6666\n".toList]).1.spawned = [2, 1] ∧
    (Server.start startedServer 2 ["PORT=6666\n".toList]).1 ≠ startedServer := by
  refine ⟨rfl, rfl, by decide⟩

/-- C6 (amended): the no-op-success guard lives in the orchestrator, not in
Server.start: Source.start_server called while is_server_started is true
returns True and changes nothing, so no second Server is constructed and no
second process is spawned through that path; Server.start itself spawns
unconditionally. -/
theorem start_server_noop_when_started (st : SourceSt) (executable : Bool) (pid : Nat)
    (lines : List Str) (h : st.is_server_started = true) :
    Source.start_server st executable pid lines = (st, some true) := by
  simp [Source.start_server, h]

/-- C6 witness: the guard fires on a concrete started source state. -/
theorem start_server_noop_when_started_witness :
    Source.start_server startedSource true 9 [] = (startedSource, some true) :=
  start_server_noop_when_started startedSource true 9 [] rfl

/-- C7: Server.stop is idempotent: with no recorded process the state comes
back unchanged; otherwise the captured stream is closed, the process killed
and handle and port cleared; afterwards is_started is false and a second
stop changes nothing. -/
theorem server_stop_idempotent (st : ServerState) :
    (st.proc = none → Server.stop st = st) ∧
    (∀ p, st.proc = some p →
      Server.stop st = ⟨none, none, st.spawned, p :: st.killed, p :: st.closed⟩) ∧
    Server.is_started (Server.stop st) = false ∧
    Server.stop (Server.stop st) = Server.stop st := by
  obtain ⟨proc, port, sp, k, c⟩ := st
  cases proc with
  | none =>
    exact ⟨fun _ => rfl, fun p hp => Option.noConfusion hp, rfl, rfl⟩
  | some q =>
    refine ⟨fun hn => Option.noConfusion hn, fun p hp => ?_, rfl, rfl⟩
    cases hp
    rfl

/-- C7 witness: stop on a stopped state is the identity, stop on a started
state clears handle and port, and both are fixed by a second stop. -/
theorem server_stop_idempotent_witness :
    Server.stop freshServer = freshServer ∧
    Server.stop startedServer = ⟨none, none, [1], [1], [1]⟩ ∧
    Server.is_started (Server.stop startedServer) = false ∧
    Server.stop (Server.stop startedServer) = Server.stop startedServer :=
  ⟨(server_stop_idempotent freshServer).1 rfl,
   (server_stop_idempotent startedServer).2.1 1 rfl,
   (server_stop_idempotent startedServer).2.2.1,
   (server_stop_idempotent startedServer).2.2.2⟩

/-- C10: when Server.start raises its startup error on a state whose port is
unset, the port stays unset so is_started is false afterwards, while the
freshly spawned handle stays recorded and the failure path kills and closes
nothing: failed startup is not atomic in the process-handle field. -/
theorem server_start_failure_keeps_handle (st : ServerState) (pid : Nat) (lines : List Str)
    (msg : Str) (hport : st.port = none)
    (hfail : (Server.start st pid lines).2 = some msg) :
    (Server.start st pid lines).1.port = none ∧
    (Server.start st pid lines).1.proc = some pid ∧
    Server.is_started (Server.start st pid lines).1 = false ∧
    (Server.start st pid lines).1.killed = st.killed ∧
    (Server.start st pid lines).1.closed = st.closed ∧
    (Server.start st pid lines).1.spawned = pid :: st.spawned := by
  unfold Server.start at hfail ⊢
  cases h : portLoop lines [] with
  | ok p =>
    rw [h] at hfail
    simp at hfail
  | error m =>
    rw [h] at hfail
    simp [Server.is_started, hport]

/-- C10 witness: a stream that ends after one non-announcing line leaves the
handle recorded, the port unset and nothing killed. -/
theorem server_start_failure_keeps_handle_witness :
    (Server.start freshServer 7 ["starting\n".toList]).1.port = none ∧
    (Server.start freshServer 7 ["starting\n".toList]).1.proc = some 7 ∧
    Server.is_started (Server.start freshServer 7 ["starting\n".toList]).1 = false ∧
    (Server.start freshServer 7 ["starting\n".toList]).1.killed = freshServer.killed ∧
    (Server.start freshServer 7 ["starting\n".toList]).1.closed = freshServer.closed ∧
    (Server.start freshServer 7 ["starting\n".toList]).1.spawned = 7 :: freshServer.spawned :=
  server_start_failure_keeps_handle freshServer 7 ["starting\n".toList]
    (serverErrorMsg "starting\n".toList) rfl (by decide)

theorem dropWhile_head_false {α : Type} (p : α → Bool) (l : List α) (a : α) (t : List α)
    (h : l.dropWhile p = a :: t) : p a = false := by
  induction l with
  | nil => exact absurd h (by simp)
  | cons x xs ih =>
    rw [List.dropWhile_cons] at h
    split at h
    · exact ih h
    · rename_i hx
      injection h with h1 h2
      subst h1
      simpa using hx

/-- C1: the source wraps no try/except around the suggest call, so with the
server already started a ClientError raised inside Client.request escapes
gather_candidates unchanged: no candidate list is produced for the editor
and print_error is never invoked — the state comes back with its error log
untouched, contradicting the claim that an empty list is returned and the
error reporter invoked once. -/
theorem gather_candidates_lets_client_error_escape :
    Source.gather_candidates [] startedSource true 1 [] "/w/a.rb".toList decodeNone
        (.httpError "HTTP Error 500: Internal Server Error".toList)
      = (startedSource,
         .error (.clientError "HTTP Error 500: Internal Server Error".toList)) := rfl

/-- C2 counterexample: a connection-level URLError is not an HTTPError, so
the except clause of Client.request does not catch it: the failure escapes
request in its original unwrapped form rather than as a ClientError. -/
theorem request_url_error_escapes_unwrapped :
    Client.request decodeNone
        (.urlError "<urlopen error [Errno 111] Connection refused>".toList)
      = .error (.urlError "<urlopen error [Errno 111] Connection refused>".toList) ∧
    ¬ ∃ m, Client.request decodeNone
        (.urlError "<urlopen error [Errno 111] Connection refused>".toList)
      = .error (.clientError m) := by
  refine ⟨rfl, ?_⟩
  rintro ⟨m, hm⟩
  simp [Client.request, post_request] at hm

/-- C2 (amended): Client.request wraps exactly the HTTPError case — a
response with a non-2xx status — as a ClientError carrying the description
of the original failure; a lower-level connection error (URLError) escapes
request unwrapped. -/
theorem request_wraps_http_error_only (decode : Str → Option SuggestResponse) (d : Str) :
    Client.request decode (.httpError d) = .error (.clientError d) ∧
    Client.request decode (.urlError d) = .error (.urlError d) :=
  ⟨rfl, rfl⟩

/-- C8: the computed abbreviation is the label followed by the parenthesised
comma-joined argument list exactly when the kind is Method, and the label
unchanged for every other kind. -/
theorem build_abbr_cases (c : Cand) :
    (c.kind = "Method".toList →
      build_abbr c = c.label ++ ['('] ++ List.intercalate ", ".toList c.arguments ++ [')']) ∧
    (c.kind ≠ "Method".toList → build_abbr c = c.label) := by
  constructor
  · intro h
    unfold build_abbr
    rw [if_pos h]
  · intro h
    unfold build_abbr
    rw [if_neg h]

/-- C8 witness: kind Method with arguments a, b yields label(a, b); a
non-callable kind keeps the label. -/
theorem build_abbr_cases_witness :
    build_abbr ⟨"foo".toList, "Method".toList, "foo".toList, [], ["a".toList, "b".toList]⟩
      = "foo(a, b)".toList ∧
    build_abbr ⟨"Bar".toList, "Class".toList, "Bar".toList, [], []⟩ = "Bar".toList :=
  ⟨((build_abbr_cases ⟨"foo".toList, "Method".toList, "foo".toList, [],
      ["a".toList, "b".toList]⟩).1 rfl).trans (by decide),
   (build_abbr_cases ⟨"Bar".toList, "Class".toList, "Bar".toList, [], []⟩).2 (by decide)⟩

/-- On an empty cache the dead guard and the missed lookup always lead to
the walk; the memoised value is the walk result with the falsy fallback. -/
theorem find_workspace_directory_miss (fs : List Str) (filepath : Str) :
    find_workspace_directory fs [] filepath
      = (some (pyOr (find_dir_recursive fs (dirname filepath) workspaceMarkers)
            (dirname filepath)),
         [(dirname filepath,
           pyOr (find_dir_recursive fs (dirname filepath) workspaceMarkers)
             (dirname filepath))]) := rfl

/-- C4: for a file path with no containing directory the guard compares
len(file_dir), an int, with the empty string, which is always False in
Python 3, so the function does not return None: it performs the walk (which
finds no marker below an empty directory), returns the empty string — a
falsy value that is not None — and memoises it under the empty key. -/
theorem find_workspace_directory_no_dir_walks :
    find_workspace_directory [] [] "file.rb".toList = (some [], [([], [])]) ∧
    (find_workspace_directory [] [] "file.rb".toList).1 ≠ none := by
  have h0 : find_dir_recursive [] ([] : Str) workspaceMarkers = none :=
    find_dir_recursive_none _ _ _ (by decide)
  have hd : dirname "file.rb".toList = [] := by decide
  have hmain : find_workspace_directory [] [] "file.rb".toList = (some [], [([], [])]) := by
    rw [find_workspace_directory_miss, hd, h0]
    rfl
  refine ⟨hmain, ?_⟩
  rw [hmain]
  simp

/-- C5 counterexample: with the only marker directly inside the filesystem
root, the walk stops before ever examining the root (the computed parent of
the root is the empty string), so the fallback containing directory is
returned although an ancestor up to and including the root does hold a
marker. -/
theorem find_workspace_directory_misses_root_marker :
    (find_workspace_directory ["/Gemfile".toList] [] "/a/b.rb".toList).1
      = some "/a".toList ∧
    List.contains ["/Gemfile".toList] (joinPath "/".toList "Gemfile".toList) = true ∧
    (find_workspace_directory ["/Gemfile".toList] [] "/a/b.rb".toList).1
      ≠ some "/".toList := by
  have h1 : find_dir_recursive ["/Gemfile".toList] "/a".toList workspaceMarkers
      = find_dir_recursive ["/Gemfile".toList] (dirname (List.dropLast "/a".toList))
          workspaceMarkers :=
    find_dir_recursive_step _ _ _ (by decide) (by decide)
  have h2 : dirname (List.dropLast "/a".toList) = "/".toList := by decide
  have h3 : find_dir_recursive ["/Gemfile".toList] "/".toList workspaceMarkers = none :=
    find_dir_recursive_none _ _ _ (by decide)
  have h4 : find_dir_recursive ["/Gemfile".toList] "/a".toList workspaceMarkers = none := by
    rw [h1, h2, h3]
  have hd : dirname "/a/b.rb".toList = "/a".toList := by decide
  have hmain : (find_workspace_directory ["/Gemfile".toList] [] "/a/b.rb".toList).1
      = some "/a".toList := by
    rw [find_workspace_directory_miss, hd, h4]
    rfl
  refine ⟨hmain, by decide, ?_⟩
  rw [hmain]
  simp

/-- C5 (amended): on an unmemoised directory, find_workspace_directory
returns the first directory, among the containing directory and its
successive ancestors with the filesystem root excluded, that directly holds
a marker, and falls back to the containing directory when none of the
examined directories holds one; the root itself is never examined. -/
theorem find_workspace_directory_nearest_nonroot_marker (fs : List Str) (filepath : Str) :
    (find_workspace_directory fs [] filepath).1
      = some (pyOr ((checkedAncestors (dirname filepath)).find?
          (fun d => workspaceMarkers.any (fun t => fs.contains (joinPath d t))))
          (dirname filepath)) ∧
    "/".toList ∉ checkedAncestors (dirname filepath) := by
  refine ⟨?_, root_not_mem_checkedAncestors _⟩
  rw [find_workspace_directory_miss, find_dir_recursive_eq_find]

/-- C9 counterexample: on a line ending in a character outside the class the
starred pattern still matches (it accepts the empty run at the end of the
line), so get_complete_position returns the input length — here 4 — and not
the sentinel -1 the claim promises when no token ends the line. -/
theorem get_complete_position_no_token_not_sentinel :
    get_complete_position "foo.".toList = 4 ∧
    trailingTokenLen "foo.".toList = 0 ∧
    get_complete_position "foo.".toList ≠ -1 := by
  decide

/-- C9 (amended): get_complete_position returns the start offset of the
maximal trailing run of identifier-like characters — the input splits as
pre ++ suf with suf all in the class, pre not ending in a class character,
and the returned offset the length of pre. When no such token ends the line
the run is empty and the offset equals the input length; the sentinel -1 is
never returned, because the starred pattern always matches. -/
theorem get_complete_position_trailing_token (s : Str) :
    get_complete_position s ≠ -1 ∧
    (trailingTokenLen s = 0 → get_complete_position s = (s.length : Int)) ∧
    ∃ pre suf : Str, s = pre ++ suf ∧ (∀ c ∈ suf, isIdentChar c = true) ∧
      (∀ (a : Char) (pre0 : Str), pre = pre0 ++ [a] → isIdentChar a = false) ∧
      get_complete_position s = (pre.length : Int) := by
  have hlen : trailingTokenLen s ≤ s.length := by
    have h := (List.takeWhile_prefix (l := s.reverse) isIdentChar).length_le
    simpa [trailingTokenLen] using h
  refine ⟨?_, ?_, (s.reverse.dropWhile isIdentChar).reverse,
    (s.reverse.takeWhile isIdentChar).reverse, ?_, ?_, ?_, ?_⟩
  · simp only [get_complete_position, searchTrailingToken]
    omega
  · intro h0
    simp only [get_complete_position, searchTrailingToken, h0]
    omega
  · rw [← List.reverse_append, List.takeWhile_append_dropWhile, List.reverse_reverse]
  · intro c hc
    exact List.mem_takeWhile_imp (List.mem_reverse.mp hc)
  · intro a pre0 hpre
    have hd : s.reverse.dropWhile isIdentChar = a :: pre0.reverse := by
      have h := congrArg List.reverse hpre
      simpa using h
    exact dropWhile_head_false isIdentChar s.reverse a pre0.reverse hd
  · have hsum : trailingTokenLen s + (s.reverse.dropWhile isIdentChar).length = s.length := by
      have h := congrArg List.length (List.takeWhile_append_dropWhile
        (p := isIdentChar) (l := s.reverse))
      rw [List.length_append, List.length_reverse] at h
      exact h
    simp only [get_complete_position, searchTrailingToken, List.length_reverse]
    omega

end Solargraph
